import Mathlib

/-!
Verification of the CORD-19 analysis pipeline
(`cord19_analysis.py` and `streamlit_app.py`).

The two Python scripts are shallowly embedded: a pandas DataFrame becomes a
`List` of records whose optional columns are `Option` fields (pandas `NaN`
is `none`), and each pipeline stage becomes a pure Lean function following
the source line by line.  Floating-point percentages and statistics are
modelled with `ℚ`.
-/

namespace Cord19

/-- A calendar date (the payload of a parsed `publish_time` value). -/
structure Date where
  year : Int
  month : Nat
  day : Nat
deriving DecidableEq, Repr

/-- Gregorian leap-year test. -/
def isLeap (y : Int) : Bool :=
  y % 4 == 0 && (y % 100 != 0 || y % 400 == 0)

/-- Number of days in a month of a given year. -/
def daysInMonth (y : Int) (m : Nat) : Nat :=
  if m == 2 then (if isLeap y then 29 else 28)
  else if m == 4 || m == 6 || m == 9 || m == 11 then 30
  else 31

/-- Successor day in the calendar. -/
def nextDay (d : Date) : Date :=
  if d.day < daysInMonth d.year d.month then
    { d with day := d.day + 1 }
  else if d.month < 12 then
    { year := d.year, month := d.month + 1, day := 1 }
  else
    { year := d.year + 1, month := 1, day := 1 }

/-- Date plus a number of days (models `date + pd.Timedelta(days=n)`). -/
def addDays : Date → Nat → Date
  | d, 0 => d
  | d, n + 1 => addDays (nextDay d) n

/-- Left-pad a numeral with zeros (models Python `{:06d}` / `%m` / `%d`). -/
def padNum (width n : Nat) : String :=
  let s := toString n
  String.mk (List.replicate (width - s.length) '0') ++ s

/-- `strftime('%Y-%m-%d')` on a `Date`. -/
def dateToString (d : Date) : String :=
  toString d.year ++ "-" ++ padNum 2 d.month ++ "-" ++ padNum 2 d.day

/-- Split a character list at every separator (keeping empty pieces, like
Python `str.split(sep)`). -/
def splitChars (p : Char → Bool) : List Char → List (List Char)
  | [] => [[]]
  | c :: cs =>
    let r := splitChars p cs
    if p c then [] :: r else (c :: r.headD []) :: r.tail

/-- Parse a run of decimal digits (like `int(s)` on a digit string). -/
def digitsToNat : List Char → Nat → Option Nat
  | [], acc => some acc
  | c :: cs, acc =>
    if c.isDigit then digitsToNat cs (acc * 10 + (c.toNat - 48)) else none

/-- `int(s)` for a nonempty all-digit string, `none` otherwise. -/
def strToNat (cs : List Char) : Option Nat :=
  if cs.isEmpty then none else digitsToNat cs 0

/-- Model of `pd.to_datetime(s, errors='coerce')` on the ISO `YYYY-MM-DD`
strings this pipeline produces: unparseable input becomes `none` (NaT). -/
def parseDate (s : String) : Option Date :=
  match splitChars (fun c => c = '-') s.data with
  | [ys, ms, ds] =>
    match strToNat ys, strToNat ms, strToNat ds with
    | some y, some m, some d =>
      if 1 ≤ m ∧ m ≤ 12 ∧ 1 ≤ d ∧ d ≤ daysInMonth (Int.ofNat y) m then
        some ⟨Int.ofNat y, m, d⟩
      else none
    | _, _, _ => none
  | _ => none

/-- Python `str.split()` with no argument: split on whitespace runs,
dropping empty pieces. -/
def splitWs (s : String) : List String :=
  ((splitChars Char.isWhitespace s.data).filter (fun t => !t.isEmpty)).map String.mk

/-- Python `str.strip()`: drop leading and trailing whitespace. -/
def stripStr (s : String) : String :=
  String.mk (((s.data.dropWhile Char.isWhitespace).reverse.dropWhile Char.isWhitespace).reverse)

/-- One row of the raw table (`metadata.csv` or the synthesized frame,
`cord19_analysis.py` lines 143-154).  Every column is optional: a pandas
cell may be `NaN`. -/
structure RawRecord where
  cord_uid : Option String
  title : Option String
  abstract : Option String
  authors : Option String
  journal : Option String
  publish_time : Option String
  source_x : Option String
  doi : Option String
  pmcid : Option String
  url : Option String
deriving DecidableEq, Repr

/-- One row of the cleaned table: the raw columns (with `publish_time`
re-typed by `pd.to_datetime`) plus the derived columns added by the
cleaning section of `cord19_analysis.py` (lines 217-260). -/
structure CleanedRecord where
  cord_uid : Option String
  title : Option String
  abstract : Option String
  authors : Option String
  journal : Option String
  publish_time : Option Date
  source_x : Option String
  doi : Option String
  pmcid : Option String
  url : Option String
  publication_year : Option Int
  publication_month : Option Nat
  title_length : Option Nat
  title_word_count : Option Nat
  has_abstract : Bool
  abstract_length : Option Nat
  abstract_word_count : Option Nat
  has_journal : Bool
deriving DecidableEq, Repr

/-- Cleaning steps 1-5 of `cord19_analysis.py` (lines 217-260), applied to
one row: parse `publish_time` (unparseable → absent), derive
year/month/title/abstract statistics (each absent when its base column is
absent, mirroring pandas `.str` accessors on `NaN`), strip `journal` and
`source_x`, and derive the `has_abstract` / `has_journal` booleans. -/
def enrich (r : RawRecord) : CleanedRecord :=
  let pt := r.publish_time.bind parseDate
  let j := r.journal.map stripStr
  { cord_uid := r.cord_uid
    title := r.title
    abstract := r.abstract
    authors := r.authors
    journal := j
    publish_time := pt
    source_x := r.source_x.map stripStr
    doi := r.doi
    pmcid := r.pmcid
    url := r.url
    publication_year := pt.map Date.year
    publication_month := pt.map Date.month
    title_length := r.title.map String.length
    title_word_count := r.title.map (fun s => (splitWs s).length)
    has_abstract := r.abstract.isSome
    abstract_length := r.abstract.map String.length
    abstract_word_count := r.abstract.map (fun s => (splitWs s).length)
    has_journal := j.isSome }

/-- Keyed duplicate removal keeping the first occurrence, in order: the
model of `DataFrame.drop_duplicates(subset=[k], keep='first')` (and of the
insertion order of `collections.Counter` keys). -/
def dedupByKeyAux {α β : Type} [DecidableEq β] (key : α → β) (seen : List β) :
    List α → List α
  | [] => []
  | x :: xs =>
    if key x ∈ seen then dedupByKeyAux key seen xs
    else x :: dedupByKeyAux key (key x :: seen) xs

/-- Entry point of the keyed first-occurrence deduplication. -/
def dedupByKey {α β : Type} [DecidableEq β] (key : α → β) (l : List α) : List α :=
  dedupByKeyAux key [] l

/-- The cleaner (`cord19_analysis.py` lines 212-268): enrich every row,
then drop duplicate titles keeping the first occurrence; also return the
number of rows removed by deduplication. -/
def clean (t : List RawRecord) : List CleanedRecord × Nat :=
  let e := t.map enrich
  let d := dedupByKey (fun r => r.title) e
  (d, e.length - d.length)

/-- Re-running cleaning steps 1-5 on an already-cleaned row: re-parsing a
datetime column is the identity, and every derived column is recomputed
from its (unchanged) base column. -/
def enrichAgain (r : CleanedRecord) : CleanedRecord :=
  let j := r.journal.map stripStr
  { r with
    journal := j
    source_x := r.source_x.map stripStr
    publication_year := r.publish_time.map Date.year
    publication_month := r.publish_time.map Date.month
    title_length := r.title.map String.length
    title_word_count := r.title.map (fun s => (splitWs s).length)
    has_abstract := r.abstract.isSome
    abstract_length := r.abstract.map String.length
    abstract_word_count := r.abstract.map (fun s => (splitWs s).length)
    has_journal := j.isSome }

/-- The cleaner applied a second time, to its own output table. -/
def cleanAgain (t : List CleanedRecord) : List CleanedRecord × Nat :=
  let e := t.map enrichAgain
  let d := dedupByKey (fun r => r.title) e
  (d, e.length - d.length)

/-! ### The synthetic-data generator (`create_sample_cord19_data`)

NumPy's globally seeded generator is modelled as a deterministic state
machine (a linear congruential generator threaded explicitly through the
row loop).  Exact bit-level agreement with NumPy's Mersenne Twister is not
required by any claim; what matters is that every drawn value is a pure
function of the carried state, which itself comes only from the seed. -/

/-- PRNG state (the state `np.random.seed` initialises). -/
structure Rng where
  state : Nat
deriving DecidableEq, Repr

/-- One LCG step. -/
def rngStep (s : Nat) : Nat :=
  (1103515245 * s + 12345) % 2147483648

/-- Model of `np.random.random()`: a rational in `[0, 1)` plus the next
state. -/
def randFloat (g : Rng) : ℚ × Rng :=
  let s := rngStep g.state
  ((s : ℚ) / 2147483648, ⟨s⟩)

/-- Model of `np.random.randint(lo, hi)`: a natural in `[lo, hi)` plus the
next state. -/
def randNat (g : Rng) (lo hi : Nat) : Nat × Rng :=
  let s := rngStep g.state
  (lo + s % (hi - lo), ⟨s⟩)

/-- Model of `np.random.choice(xs)` for a list of strings. -/
def randChoice (g : Rng) (xs : List String) : String × Rng :=
  let (k, g2) := randNat g 0 xs.length
  (xs.getD k "", g2)

/-- Model of `np.random.choice(xs, n, replace=False)`: draw `n` strings
without replacement. -/
def randChoiceDistinct (g : Rng) (xs : List String) : Nat → List String × Rng
  | 0 => ([], g)
  | n + 1 =>
    let (k, g1) := randNat g 0 xs.length
    let w := xs.getD k ""
    let (ws, g2) := randChoiceDistinct g1 (xs.eraseIdx k) n
    (w :: ws, g2)

/-- The journal vocabulary (`cord19_analysis.py` lines 87-92). -/
def journalsList : List String :=
  ["Nature", "Science", "Cell", "Lancet", "New England Journal of Medicine",
   "JAMA", "BMJ", "PLoS ONE", "Nature Medicine", "Science Translational Medicine",
   "Journal of Virology", "Virology", "Clinical Infectious Diseases",
   "Emerging Infectious Diseases", "Journal of Medical Virology"]

/-- The source vocabulary (line 95). -/
def sourcesList : List String :=
  ["PMC", "Medline", "bioRxiv", "medRxiv", "ArXiv", "WHO"]

/-- The title keyword vocabulary (lines 98-103). -/
def titleKeywords : List String :=
  ["COVID-19", "SARS-CoV-2", "coronavirus", "pandemic", "vaccination",
   "treatment", "diagnosis", "epidemiology", "transmission", "symptoms",
   "clinical", "therapeutic", "antiviral", "antibody", "immunity",
   "respiratory", "pneumonia", "outbreak", "public health", "lockdown"]

/-- One loop iteration of `create_sample_cord19_data` (lines 113-154),
with the draws in exactly the source's evaluation order.  Note the date
branch draws a fresh uniform at each `elif`: the second uniform is drawn
only when the first is ≥ 0.1, and so on. -/
def mkRow (g : Rng) (i : Nat) : RawRecord × Rng :=
  let (u1, g) := randFloat g
  let (pubDate, g) :=
    if u1 < 1 / 10 then
      let (d, g) := randNat g 0 31
      (addDays ⟨2019, 12, 1⟩ d, g)
    else
      let (u2, g) := randFloat g
      if u2 < 1 / 2 then
        let (d, g) := randNat g 0 365
        (addDays ⟨2020, 1, 1⟩ d, g)
      else
        let (u3, g) := randFloat g
        if u3 < 4 / 5 then
          let (d, g) := randNat g 0 365
          (addDays ⟨2021, 1, 1⟩ d, g)
        else
          let (d, g) := randNat g 0 365
          (addDays ⟨2022, 1, 1⟩ d, g)
  let (numKeywords, g) := randNat g 2 5
  let (selected, g) := randChoiceDistinct g titleKeywords numKeywords
  let title := "Analysis of " ++ String.intercalate " and " selected ++ " in clinical settings"
  let (ua, g) := randFloat g
  let (abstract, g) :=
    if ua > 1 / 20 then
      let (alen, g) := randNat g 100 500
      (some ("This study examines " ++ selected.getD 0 "" ++ " with " ++
        toString alen ++ " word abstract..."), g)
    else (none, g)
  let (uauth, g) := randFloat g
  let (authors, g) :=
    if uauth > 1 / 50 then
      let (numAuthors, g) := randNat g 1 8
      (some (if numAuthors > 1 then "Author" ++ toString i ++ "_1, Author" ++ toString i ++ "_2"
             else "Author" ++ toString i ++ "_1"), g)
    else (none, g)
  let (uj, g) := randFloat g
  let (journal, g) :=
    if uj > 1 / 10 then
      let (j, g) := randChoice g journalsList
      (some j, g)
    else (none, g)
  let (up, g) := randFloat g
  let publishTime := if up > 1 / 20 then some (dateToString pubDate) else none
  let (src, g) := randChoice g sourcesList
  let (ud, g) := randFloat g
  let doi := if ud > 1 / 10 then some ("10.1000/sample." ++ toString i) else none
  let (um, g) := randFloat g
  let pmcid := if um > 3 / 10 then some ("PMC" ++ toString (1000000 + i)) else none
  let (uu, g) := randFloat g
  let url := if uu > 1 / 5 then some ("https://example.com/paper_" ++ toString i) else none
  ({ cord_uid := some ("cord-" ++ padNum 6 i)
     title := some title
     abstract := abstract
     authors := authors
     journal := journal
     publish_time := publishTime
     source_x := some src
     doi := doi
     pmcid := pmcid
     url := url }, g)

/-- The generation loop: rows `start, start+1, …` threading the PRNG
state. -/
def genRows (g : Rng) (start : Nat) : Nat → List RawRecord
  | 0 => []
  | n + 1 => (mkRow g start).1 :: genRows (mkRow g start).2 (start + 1) n

/-- `create_sample_cord19_data` parametrised on the seed and the row count
(the script fixes `np.random.seed(42)` and `n_papers = 5000`). -/
def createSampleData (seed n : Nat) : List RawRecord :=
  genRows ⟨seed⟩ 0 n

/-! ### The filter engine (`streamlit_app.py` lines 144-166)

The dashboard's cleaned snapshot always carries the `publication_year`,
`journal`, `source_x` and `has_abstract` columns, so the defensive
`'col' in filtered_df.columns` guards of the source are always taken. -/

/-- The four sidebar criteria.  `journal`/`source` use the `"All"`
sentinel of the selectboxes; `requireAbstract` is the checkbox (its no-op
sentinel is `false`).  The year range has no sentinel: it is always
applied. -/
structure FilterCriteria where
  yearRange : Int × Int
  journal : String
  source : String
  requireAbstract : Bool
deriving DecidableEq, Repr

/-- The year-range predicate (lines 150-154).  In pandas any comparison
with `NaN` is `False`, so a row with an absent `publication_year` never
passes. -/
def yearPred (lo hi : Int) (r : CleanedRecord) : Bool :=
  match r.publication_year with
  | some y => decide (lo ≤ y) && decide (y ≤ hi)
  | none => false

/-- `applyFilters` (lines 147-166): year range, then journal, then source,
then abstract availability, each a row filter on the previous result. -/
def applyFilters (t : List CleanedRecord) (c : FilterCriteria) : List CleanedRecord :=
  let t1 := t.filter (yearPred c.yearRange.1 c.yearRange.2)
  let t2 := if c.journal = "All" then t1
            else t1.filter (fun r => decide (r.journal = some c.journal))
  let t3 := if c.source = "All" then t2
            else t2.filter (fun r => decide (r.source_x = some c.source))
  if c.requireAbstract then t3.filter (fun r => r.has_abstract) else t3

/-! ### Generic descending insertion sort

`DataFrame.sort_values(..., ascending=False)` and
`Counter.most_common()` both present entries in descending key order; the
latter is additionally stable (Python's `sorted` is stable and `Counter`
items are in insertion order), which this head-insertion sort also is. -/

/-- Insert `x` into a list sorted by descending `key`, after every element
with a strictly larger key (so equal keys keep `x` first: stability). -/
def insertDescBy {α : Type} (key : α → Nat) (x : α) : List α → List α
  | [] => [x]
  | y :: ys => if key y > key x then y :: insertDescBy key x ys else x :: y :: ys

/-- Stable insertion sort by descending `key`. -/
def sortDescBy {α : Type} (key : α → Nat) : List α → List α
  | [] => []
  | x :: xs => insertDescBy key x (sortDescBy key xs)

/-! ### The missing-value report (`cord19_analysis.py` lines 193-198) -/

/-- The ten columns of the raw table, as an enumeration. -/
inductive RawCol
  | cord_uid | title | abstract | authors | journal
  | publish_time | source_x | doi | pmcid | url
deriving DecidableEq, Repr

/-- Column names as they appear in the frame. -/
def colName : RawCol → String
  | .cord_uid => "cord_uid"
  | .title => "title"
  | .abstract => "abstract"
  | .authors => "authors"
  | .journal => "journal"
  | .publish_time => "publish_time"
  | .source_x => "source_x"
  | .doi => "doi"
  | .pmcid => "pmcid"
  | .url => "url"

/-- `df[col].isnull()` on one row. -/
def colIsMissing : RawCol → RawRecord → Bool
  | .cord_uid, r => r.cord_uid.isNone
  | .title, r => r.title.isNone
  | .abstract, r => r.abstract.isNone
  | .authors, r => r.authors.isNone
  | .journal, r => r.journal.isNone
  | .publish_time, r => r.publish_time.isNone
  | .source_x, r => r.source_x.isNone
  | .doi, r => r.doi.isNone
  | .pmcid, r => r.pmcid.isNone
  | .url, r => r.url.isNone

/-- `df.columns` in frame order (the dict-literal order of lines
143-154). -/
def rawColumnsList : List RawCol :=
  [.cord_uid, .title, .abstract, .authors, .journal,
   .publish_time, .source_x, .doi, .pmcid, .url]

/-- `missing_analysis` (lines 193-198), computed on the raw, pre-cleaning
frame `df`: per column the count of absent cells and
`count / len(df) * 100`, restricted to columns with a positive count and
sorted by descending count. -/
def missingReport (t : List RawRecord) : List (String × Nat × ℚ) :=
  let rows := rawColumnsList.map fun c =>
    (colName c, t.countP (colIsMissing c), ((t.countP (colIsMissing c) : ℚ) / (t.length : ℚ)) * 100)
  sortDescBy (fun e => e.2.1) (rows.filter fun e => decide (e.2.1 > 0))

/-! ### Title word frequency (`cord19_analysis.py` lines 393-401) -/

/-- Python's `\w` on the ASCII text of this pipeline. -/
def isWordChar (c : Char) : Bool :=
  c.isAlphanum || c = '_'

/-- `str.lower()`. -/
def lowerStr (s : String) : String :=
  String.mk (s.data.map Char.toLower)

/-- Accumulator-based scanner collecting maximal runs of word
characters. -/
def tokenizeAux : List Char → List Char → List String
  | [], acc => if acc.isEmpty then [] else [String.mk acc.reverse]
  | c :: cs, acc =>
    if isWordChar c then tokenizeAux cs (c :: acc)
    else if acc.isEmpty then tokenizeAux cs []
    else String.mk acc.reverse :: tokenizeAux cs []

/-- `re.findall(r'\b\w+\b', s)`: the maximal runs of word characters. -/
def tokenize (s : String) : List String :=
  tokenizeAux s.data []

/-- The `stop_words` list of line 396. -/
def stopWords : List String :=
  ["the", "a", "an", "and", "or", "but", "in", "on", "at", "to", "for",
   "of", "with", "by", "from", "is", "are", "was", "were", "be", "been",
   "have", "has", "had"]

/-- `collections.Counter(ws)` viewed as its insertion-ordered item list:
one entry per distinct word in first-occurrence order, paired with its
number of occurrences. -/
def countWords (ws : List String) : List (String × Nat) :=
  (dedupByKey id ws).map fun w => (w, ws.count w)

/-- Python `' '.join(xs)`. -/
def joinSpaced : List String → String
  | [] => ""
  | [s] => s
  | s :: rest => s ++ " " ++ joinSpaced rest

/-- The filtered token stream of lines 394-398: join the lower-cased
non-absent titles with spaces, tokenize on `\w+`, and keep the tokens
longer than 2 characters that are not stopwords. -/
def filteredTitleTokens (t : List CleanedRecord) (sw : List String) : List String :=
  (tokenize (joinSpaced ((t.filterMap (fun r => r.title)).map lowerStr))).filter
    fun w => decide (w.length > 2) && !(sw.contains w)

/-- The word-frequency analysis (lines 393-401): count the filtered
tokens and sort by descending count (`most_common`, which is stable, so
ties stay in first-occurrence order). -/
def titleWordFrequency (t : List CleanedRecord) (sw : List String) : List (String × Nat) :=
  sortDescBy (fun e : String × Nat => e.2) (countWords (filteredTitleTokens t sw))

/-! ### Abstract length statistics (`streamlit_app.py` lines 363-391) -/

/-- Ascending insertion sort on naturals (for the median). -/
def insertAsc (x : Nat) : List Nat → List Nat
  | [] => [x]
  | y :: ys => if y < x then y :: insertAsc x ys else x :: y :: ys

/-- Ascending sort on naturals. -/
def sortAsc : List Nat → List Nat
  | [] => []
  | x :: xs => insertAsc x (sortAsc xs)

/-- `Series.median()`: middle element of the sorted values for odd length,
average of the two middle elements for even length. -/
def medianQ (ls : List Nat) : ℚ :=
  let s := sortAsc ls
  let n := s.length
  if n % 2 = 1 then (s.getD (n / 2) 0 : ℚ)
  else ((s.getD (n / 2 - 1) 0 : ℚ) + (s.getD (n / 2) 0 : ℚ)) / 2

/-- The four summary statistics displayed by the dashboard. -/
structure AbstractStats where
  mean : ℚ
  median : ℚ
  minLen : Nat
  maxLen : Nat
deriving DecidableEq, Repr

/-- `filtered_df['abstract_length'].dropna()` followed by the
`len(abstract_lengths) > 0` guard of `streamlit_app.py` line 367: the
mean/median/min/max block runs only on a nonempty value list, and the
all-absent case yields an explicit no-data result (`none`) instead of a
crash or a propagated `NaN`. -/
def abstractLengthStats (t : List CleanedRecord) : Option AbstractStats :=
  let ls : List Nat := t.filterMap fun r => r.abstract_length
  if ls.isEmpty then none
  else some
    { mean := ((ls.sum : Nat) : ℚ) / (ls.length : ℚ)
      median := medianQ ls
      minLen := (sortAsc ls).getD 0 0
      maxLen := (sortAsc ls).getD (ls.length - 1) 0 }

/-! ### The date-branch distribution (`cord19_analysis.py` lines 113-122)

The `if/elif` chain compares a fresh uniform draw against 0.1, then 0.5,
then 0.8.  `dateBucket` maps the three (potential) draws to the selected
window; evaluating it on all of them unconditionally is distributionally
harmless because the draws are independent.  Since every threshold is a
multiple of 1/10, the exact per-row probability of each window equals its
frequency on the uniform grid `{0, 1/10, …, 9/10}³` of 1000 equally
likely triples. -/

/-- Which publication window the chain of lines 115-122 selects, as a
function of the three uniform draws: `0` = the 31-day window from
2019-12-01, `1` = 2020, `2` = 2021, `3` = 2022. -/
def dateBucket (u1 u2 u3 : ℚ) : Nat :=
  if u1 < 1 / 10 then 0
  else if u2 < 1 / 2 then 1
  else if u3 < 4 / 5 then 2
  else 3

/-- The 1000 grid triples. -/
def bucketGrid : List (Nat × Nat × Nat) :=
  (List.range 10).flatMap fun i =>
    (List.range 10).flatMap fun j =>
      (List.range 10).map fun k => (i, j, k)

/-- How many of the 1000 equally likely grid triples select window `b`:
1000 times the per-row probability of that window. -/
def bucketGridCount (b : Nat) : Nat :=
  bucketGrid.countP fun x =>
    dateBucket ((x.1 : ℚ) / 10) ((x.2.1 : ℚ) / 10) ((x.2.2 : ℚ) / 10) == b

/-! ### Helper lemmas about `dedupByKey` -/

theorem dedupByKeyAux_sublist {α β : Type} [DecidableEq β] (key : α → β)
    (seen : List β) (l : List α) :
    List.Sublist (dedupByKeyAux key seen l) l := by
  induction l generalizing seen with
  | nil => exact List.Sublist.refl _
  | cons x xs ih =>
    rw [dedupByKeyAux]
    by_cases h : key x ∈ seen
    · rw [if_pos h]
      exact (ih seen).cons x
    · rw [if_neg h]
      exact (ih _).cons₂ x

theorem dedupByKey_sublist {α β : Type} [DecidableEq β] (key : α → β) (l : List α) :
    List.Sublist (dedupByKey key l) l :=
  dedupByKeyAux_sublist key [] l

theorem dedupByKeyAux_notin_seen {α β : Type} [DecidableEq β] (key : α → β)
    (seen : List β) (l : List α) :
    ∀ b ∈ dedupByKeyAux key seen l, key b ∉ seen := by
  induction l generalizing seen with
  | nil => intro b hb; cases hb
  | cons x xs ih =>
    intro b hb
    rw [dedupByKeyAux] at hb
    by_cases h : key x ∈ seen
    · rw [if_pos h] at hb
      exact ih seen b hb
    · rw [if_neg h] at hb
      rcases List.mem_cons.mp hb with rfl | hb2
      · exact h
      · have h2 := ih _ b hb2
        exact fun hc => h2 (List.mem_cons_of_mem _ hc)

theorem dedupByKeyAux_pairwise {α β : Type} [DecidableEq β] (key : α → β)
    (seen : List β) (l : List α) :
    (dedupByKeyAux key seen l).Pairwise (fun a b => key a ≠ key b) := by
  induction l generalizing seen with
  | nil => exact List.Pairwise.nil
  | cons x xs ih =>
    rw [dedupByKeyAux]
    by_cases h : key x ∈ seen
    · rw [if_pos h]
      exact ih seen
    · rw [if_neg h, List.pairwise_cons]
      refine ⟨fun b hb => ?_, ih _⟩
      have h2 := dedupByKeyAux_notin_seen key _ xs b hb
      exact fun hc => h2 (hc ▸ List.mem_cons_self _ _)

theorem dedupByKey_pairwise {α β : Type} [DecidableEq β] (key : α → β) (l : List α) :
    (dedupByKey key l).Pairwise (fun a b => key a ≠ key b) :=
  dedupByKeyAux_pairwise key [] l

theorem dedupByKeyAux_complete {α β : Type} [DecidableEq β] (key : α → β)
    (seen : List β) (l : List α) :
    ∀ a ∈ l, key a ∉ seen → ∃ b, b ∈ dedupByKeyAux key seen l ∧ key b = key a := by
  induction l generalizing seen with
  | nil => intro a ha; cases ha
  | cons x xs ih =>
    intro a ha hnot
    rw [dedupByKeyAux]
    by_cases h : key x ∈ seen
    · rw [if_pos h]
      rcases List.mem_cons.mp ha with rfl | ha2
      · exact absurd h hnot
      · exact ih seen a ha2 hnot
    · rw [if_neg h]
      rcases List.mem_cons.mp ha with rfl | ha2
      · exact ⟨a, List.mem_cons_self _ _, rfl⟩
      · by_cases hk : key a = key x
        · exact ⟨x, List.mem_cons_self _ _, hk.symm⟩
        · have hnot2 : key a ∉ key x :: seen := by
            intro hc
            rcases List.mem_cons.mp hc with hc1 | hc2
            · exact hk hc1
            · exact hnot hc2
          obtain ⟨b, hb, hkb⟩ := ih (key x :: seen) a ha2 hnot2
          exact ⟨b, List.mem_cons_of_mem _ hb, hkb⟩

theorem dedupByKey_complete {α β : Type} [DecidableEq β] (key : α → β) (l : List α) :
    ∀ a ∈ l, ∃ b, b ∈ dedupByKey key l ∧ key b = key a :=
  fun a ha => dedupByKeyAux_complete key [] l a ha (by simp)

theorem dedupByKeyAux_find {α β : Type} [DecidableEq β] (key : α → β)
    (seen : List β) (l : List α) :
    ∀ b ∈ dedupByKeyAux key seen l,
      l.find? (fun a => decide (key a = key b)) = some b := by
  induction l generalizing seen with
  | nil => intro b hb; cases hb
  | cons x xs ih =>
    intro b hb
    rw [dedupByKeyAux] at hb
    by_cases h : key x ∈ seen
    · rw [if_pos h] at hb
      have hnotb := dedupByKeyAux_notin_seen key seen xs b hb
      have hne : ¬(key x = key b) := fun hc => hnotb (hc ▸ h)
      simp only [List.find?, decide_eq_false hne]
      exact ih seen b hb
    · rw [if_neg h] at hb
      rcases List.mem_cons.mp hb with rfl | hb2
      · simp [List.find?]
      · have hnotb := dedupByKeyAux_notin_seen key _ xs b hb2
        have hne : ¬(key x = key b) := fun hc => hnotb (hc ▸ List.mem_cons_self _ _)
        simp only [List.find?, decide_eq_false hne]
        exact ih _ b hb2

theorem dedupByKey_find {α β : Type} [DecidableEq β] (key : α → β) (l : List α) :
    ∀ b ∈ dedupByKey key l, l.find? (fun a => decide (key a = key b)) = some b :=
  dedupByKeyAux_find key [] l

theorem dedupByKeyAux_of_pairwise {α β : Type} [DecidableEq β] (key : α → β)
    (seen : List β) (l : List α) (hseen : ∀ a ∈ l, key a ∉ seen)
    (h : l.Pairwise (fun a b => key a ≠ key b)) : dedupByKeyAux key seen l = l := by
  induction l generalizing seen with
  | nil => rfl
  | cons x xs ih =>
    rw [List.pairwise_cons] at h
    rw [dedupByKeyAux, if_neg (hseen x (List.mem_cons_self _ _))]
    congr 1
    apply ih _ _ h.2
    intro a ha hc
    rcases List.mem_cons.mp hc with hc1 | hc2
    · exact h.1 a ha hc1.symm
    · exact hseen a (List.mem_cons_of_mem _ ha) hc2

theorem dedupByKey_of_pairwise {α β : Type} [DecidableEq β] (key : α → β) (l : List α)
    (h : l.Pairwise (fun a b => key a ≠ key b)) : dedupByKey key l = l :=
  dedupByKeyAux_of_pairwise key [] l (by simp) h

/-! ### Helper lemmas about the descending insertion sort -/

theorem insertDescBy_perm {α : Type} (key : α → Nat) (x : α) (l : List α) :
    List.Perm (insertDescBy key x l) (x :: l) := by
  induction l with
  | nil => exact List.Perm.refl _
  | cons y ys ih =>
    rw [insertDescBy]
    by_cases h : key y > key x
    · rw [if_pos h]
      exact (ih.cons y).trans (List.Perm.swap x y ys)
    · rw [if_neg h]

theorem sortDescBy_perm {α : Type} (key : α → Nat) (l : List α) :
    List.Perm (sortDescBy key l) l := by
  induction l with
  | nil => exact List.Perm.refl _
  | cons x xs ih =>
    rw [sortDescBy]
    exact (insertDescBy_perm key x _).trans (ih.cons x)

theorem insertDescBy_pairwise {α : Type} (key : α → Nat) (x : α) (l : List α)
    (h : l.Pairwise (fun a b => key b ≤ key a)) :
    (insertDescBy key x l).Pairwise (fun a b => key b ≤ key a) := by
  induction l with
  | nil => simp [insertDescBy]
  | cons y ys ih =>
    rw [List.pairwise_cons] at h
    rw [insertDescBy]
    by_cases hyx : key y > key x
    · rw [if_pos hyx, List.pairwise_cons]
      refine ⟨fun b hb => ?_, ih h.2⟩
      rcases List.mem_cons.mp (((insertDescBy_perm key x ys).mem_iff).mp hb) with rfl | hby
      · exact Nat.le_of_lt hyx
      · exact h.1 b hby
    · rw [if_neg hyx, List.pairwise_cons]
      refine ⟨fun b hb => ?_, List.pairwise_cons.mpr h⟩
      rcases List.mem_cons.mp hb with rfl | hby
      · exact Nat.le_of_not_lt hyx
      · exact Nat.le_trans (h.1 b hby) (Nat.le_of_not_lt hyx)

theorem sortDescBy_sorted {α : Type} (key : α → Nat) (l : List α) :
    (sortDescBy key l).Pairwise (fun a b => key b ≤ key a) := by
  induction l with
  | nil => simp [sortDescBy]
  | cons x xs ih =>
    rw [sortDescBy]
    exact insertDescBy_pairwise key x _ ih

/-! ### Helper lemmas about `countWords`, `clean` and `applyFilters` -/

theorem countWords_mem {ws : List String} {w : String} {c : Nat}
    (h : (w, c) ∈ countWords ws) : c = ws.count w ∧ w ∈ ws := by
  rw [countWords] at h
  obtain ⟨v, hv, hveq⟩ := List.mem_map.mp h
  injection hveq with h1 h2
  subst h1
  exact ⟨h2.symm, (dedupByKey_sublist id ws).mem hv⟩

theorem countWords_complete {ws : List String} {w : String} (hw : w ∈ ws) :
    (w, ws.count w) ∈ countWords ws := by
  obtain ⟨b, hb, hkb⟩ := dedupByKey_complete id ws w hw
  rw [countWords]
  have : b = w := hkb
  subst this
  exact List.mem_map_of_mem _ hb

theorem mem_clean (t : List RawRecord) (r : CleanedRecord) (h : r ∈ (clean t).1) :
    ∃ r0, r0 ∈ t ∧ r = enrich r0 := by
  have : r ∈ t.map enrich := (dedupByKey_sublist _ _).mem h
  obtain ⟨r0, h0, hr⟩ := List.mem_map.mp this
  exact ⟨r0, h0, hr.symm⟩

theorem mem_cleanAgain (t : List CleanedRecord) (r : CleanedRecord)
    (h : r ∈ (cleanAgain t).1) : ∃ r0, r0 ∈ t ∧ r = enrichAgain r0 := by
  have : r ∈ t.map enrichAgain := (dedupByKey_sublist _ _).mem h
  obtain ⟨r0, h0, hr⟩ := List.mem_map.mp this
  exact ⟨r0, h0, hr.symm⟩

theorem applyFilters_sublist (t : List CleanedRecord) (c : FilterCriteria) :
    List.Sublist (applyFilters t c) t := by
  unfold applyFilters
  have h1 : List.Sublist (t.filter (yearPred c.yearRange.1 c.yearRange.2)) t :=
    List.filter_sublist t
  split_ifs <;>
    first
    | exact h1
    | exact (List.filter_sublist _).trans h1
    | exact ((List.filter_sublist _).trans (List.filter_sublist _)).trans h1
    | exact (((List.filter_sublist _).trans (List.filter_sublist _)).trans
        (List.filter_sublist _)).trans h1

theorem mem_applyFilters (t : List CleanedRecord) (c : FilterCriteria) (r : CleanedRecord) :
    r ∈ applyFilters t c ↔
      r ∈ t ∧ yearPred c.yearRange.1 c.yearRange.2 r = true ∧
      (c.journal ≠ "All" → r.journal = some c.journal) ∧
      (c.source ≠ "All" → r.source_x = some c.source) ∧
      (c.requireAbstract = true → r.has_abstract = true) := by
  unfold applyFilters
  split_ifs <;> simp [List.mem_filter, *, and_assoc] <;> tauto

theorem yearPred_none {lo hi : Int} {r : CleanedRecord}
    (h : r.publication_year = none) : yearPred lo hi r = false := by
  rw [yearPred, h]

theorem yearPred_single (r : CleanedRecord) :
    yearPred 2020 2020 r = decide (r.publication_year = some (2020 : Int)) := by
  cases hy : r.publication_year with
  | none => simp [yearPred, hy]
  | some y =>
    simp only [yearPred, hy]
    rw [← Bool.decide_and]
    apply decide_eq_decide.mpr
    constructor
    · rintro ⟨h1, h2⟩
      rw [le_antisymm h2 h1]
    · intro h
      injection h with h
      subst h
      exact ⟨le_refl _, le_refl _⟩

theorem applyFilters_singleYear (t : List CleanedRecord) :
    applyFilters t ⟨(2020, 2020), "All", "All", false⟩ =
      t.filter fun r => decide (r.publication_year = some (2020 : Int)) := by
  unfold applyFilters
  simp only [if_pos rfl, if_neg Bool.false_ne_true, Bool.false_eq_true]
  exact List.filter_congr fun r _ => yearPred_single r

theorem applyFilters_noop (t : List CleanedRecord) (lo hi : Int)
    (h : ∀ r ∈ t, yearPred lo hi r = true) :
    applyFilters t ⟨(lo, hi), "All", "All", false⟩ = t := by
  unfold applyFilters
  simp only [if_pos rfl, if_neg Bool.false_ne_true, Bool.false_eq_true]
  exact List.filter_eq_self.mpr h

theorem cleanAgain_removes_zero (t : List RawRecord) :
    (cleanAgain (clean t).1).2 = 0 := by
  have hp : ((clean t).1).Pairwise (fun a b => a.title ≠ b.title) :=
    dedupByKey_pairwise (fun r => r.title) (t.map enrich)
  have hmap : (((clean t).1).map enrichAgain).Pairwise
      (fun a b => a.title ≠ b.title) := by
    rw [List.pairwise_map]
    exact hp.imp fun h => h
  show (((clean t).1).map enrichAgain).length -
      (dedupByKey (fun r => r.title) (((clean t).1).map enrichAgain)).length = 0
  rw [dedupByKey_of_pairwise _ _ hmap, Nat.sub_self]

theorem genRows_length (g : Rng) (start n : Nat) : (genRows g start n).length = n := by
  induction n generalizing g start with
  | zero => rfl
  | succ n ih =>
    show ((mkRow g start).1 :: genRows (mkRow g start).2 (start + 1) n).length = n + 1
    rw [List.length_cons, ih]

/-! ### Helper lemmas about `missingReport` -/

theorem missingReport_mem (t : List RawRecord) (e : String × Nat × ℚ)
    (he : e ∈ missingReport t) :
    ∃ c : RawCol, c ∈ rawColumnsList ∧ 0 < t.countP (colIsMissing c) ∧
      e = (colName c, t.countP (colIsMissing c),
        ((t.countP (colIsMissing c) : ℚ) / (t.length : ℚ)) * 100) := by
  rw [missingReport] at he
  have hmem := (sortDescBy_perm (fun e : String × Nat × ℚ => e.2.1) _).mem_iff.mp he
  obtain ⟨hmem2, hpos⟩ := List.mem_filter.mp hmem
  obtain ⟨c, hc, hce⟩ := List.mem_map.mp hmem2
  refine ⟨c, hc, ?_, hce.symm⟩
  rw [← hce] at hpos
  simpa using hpos

theorem missingReport_complete (t : List RawRecord) (c : RawCol)
    (hc : c ∈ rawColumnsList) (hpos : 0 < t.countP (colIsMissing c)) :
    (colName c, t.countP (colIsMissing c),
      ((t.countP (colIsMissing c) : ℚ) / (t.length : ℚ)) * 100) ∈ missingReport t := by
  rw [missingReport]
  apply (sortDescBy_perm (fun e : String × Nat × ℚ => e.2.1) _).mem_iff.mpr
  apply List.mem_filter.mpr
  exact ⟨List.mem_map_of_mem _ hc, by simpa using hpos⟩

theorem missingReport_sorted (t : List RawRecord) :
    (missingReport t).Pairwise (fun a b => b.2.1 ≤ a.2.1) :=
  sortDescBy_sorted (fun e : String × Nat × ℚ => e.2.1) _

/-! ### Helper lemmas about the date-bucket grid -/

theorem dateBucket_grid (i j k : Nat) :
    dateBucket ((i : ℚ) / 10) ((j : ℚ) / 10) ((k : ℚ) / 10) =
      (if i < 1 then 0 else if j < 5 then 1 else if k < 8 then 2 else 3) := by
  have h10 : (0 : ℚ) < 10 := by norm_num
  have h1 : ((i : ℚ) / 10 < 1 / 10) ↔ i < 1 := by
    rw [div_lt_iff₀ h10]
    norm_num
  have h2 : ((j : ℚ) / 10 < 1 / 2) ↔ j < 5 := by
    rw [div_lt_iff₀ h10]
    norm_num
  have h3 : ((k : ℚ) / 10 < 4 / 5) ↔ k < 8 := by
    rw [div_lt_iff₀ h10]
    norm_num
  simp only [dateBucket, h1, h2, h3]

theorem bucketGridCount_eq (b : Nat) :
    bucketGridCount b = bucketGrid.countP
      (fun x => (if x.1 < 1 then 0 else if x.2.1 < 5 then 1 else if x.2.2 < 8 then 2 else 3) == b) :=
  List.countP_congr fun x _ => by rw [dateBucket_grid]

/-! ### Concrete example records used by the witnesses and
counterexamples -/

/-- A cleaned row whose derived publication year is 2020. -/
def exRow2020 : CleanedRecord :=
  { cord_uid := some "cord-000001", title := some "Analysis of COVID-19 in clinical settings",
    abstract := some "This study examines COVID-19", authors := some "Author1_1",
    journal := some "Nature", publish_time := some ⟨2020, 3, 4⟩, source_x := some "PMC",
    doi := none, pmcid := none, url := none,
    publication_year := some 2020, publication_month := some 3,
    title_length := some 41, title_word_count := some 6,
    has_abstract := true, abstract_length := some 28, abstract_word_count := some 4,
    has_journal := true }

/-- A cleaned row whose publication year is absent (unparseable date). -/
def exRowNoYear : CleanedRecord :=
  { cord_uid := some "cord-000002", title := some "Analysis of vaccination",
    abstract := none, authors := none,
    journal := none, publish_time := none, source_x := some "PMC",
    doi := none, pmcid := none, url := none,
    publication_year := none, publication_month := none,
    title_length := some 23, title_word_count := some 3,
    has_abstract := false, abstract_length := none, abstract_word_count := none,
    has_journal := false }

/-- A raw row with a title, an abstract and a parseable date. -/
def exRawA : RawRecord :=
  { cord_uid := some "cord-000000", title := some "Analysis of COVID-19",
    abstract := some "alpha beta", authors := some "Author0_1",
    journal := some " Nature ", publish_time := some "2020-03-04",
    source_x := some "PMC", doi := none, pmcid := none, url := none }

/-- A raw row that duplicates the title of `exRawA` and has no abstract
and an unparseable date. -/
def exRawB : RawRecord :=
  { cord_uid := some "cord-000001", title := some "Analysis of COVID-19",
    abstract := none, authors := none,
    journal := none, publish_time := some "bogus",
    source_x := some "PMC", doi := none, pmcid := none, url := none }

/-- A cleaned row carrying only a title (for the word-frequency example). -/
def exTitleRow (s : String) : CleanedRecord :=
  { cord_uid := none, title := some s, abstract := none, authors := none,
    journal := none, publish_time := none, source_x := none,
    doi := none, pmcid := none, url := none,
    publication_year := none, publication_month := none,
    title_length := none, title_word_count := none,
    has_abstract := false, abstract_length := none, abstract_word_count := none,
    has_journal := false }

/-- The two-title table of the word-frequency example. -/
def exTitlesTable : List CleanedRecord :=
  [exTitleRow "COVID-19 and vaccination", exTitleRow "vaccination and treatment"]

/-- Per-row abstract invariant established by the cleaning steps. -/
theorem enrich_abstract_invariant (r0 : RawRecord) :
    ((enrich r0).has_abstract = true ↔ (enrich r0).abstract.isSome = true) ∧
    ((enrich r0).has_abstract = false →
      (enrich r0).abstract_length = none ∧ (enrich r0).abstract_word_count = none) := by
  refine ⟨Iff.rfl, fun hfalse => ?_⟩
  have habs : r0.abstract = none := by
    cases h : r0.abstract with
    | none => rfl
    | some a =>
      have htrue : (enrich r0).has_abstract = true := by
        show r0.abstract.isSome = true
        rw [h]
        rfl
      exact Bool.noConfusion (htrue.symm.trans hfalse)
  constructor
  · show r0.abstract.map String.length = none
    rw [habs]
    rfl
  · show r0.abstract.map (fun s => (splitWs s).length) = none
    rw [habs]
    rfl

/-- Per-row abstract invariant re-established when cleaning runs again. -/
theorem enrichAgain_abstract_invariant (r0 : CleanedRecord) :
    ((enrichAgain r0).has_abstract = true ↔ (enrichAgain r0).abstract.isSome = true) ∧
    ((enrichAgain r0).has_abstract = false →
      (enrichAgain r0).abstract_length = none ∧ (enrichAgain r0).abstract_word_count = none) := by
  refine ⟨Iff.rfl, fun hfalse => ?_⟩
  have habs : r0.abstract = none := by
    cases h : r0.abstract with
    | none => rfl
    | some a =>
      have htrue : (enrichAgain r0).has_abstract = true := by
        show r0.abstract.isSome = true
        rw [h]
        rfl
      exact Bool.noConfusion (htrue.symm.trans hfalse)
  constructor
  · show r0.abstract.map String.length = none
    rw [habs]
    rfl
  · show r0.abstract.map (fun s => (splitWs s).length) = none
    rw [habs]
    rfl

/-! ## Claim theorems -/

/-- **C1** (amended): `applyFilters` composes the configured criteria as a
logical AND — the year range inclusive on both ends, a `journal`/`source`
criterion set to `"All"` and a `requireAbstract` set to `false` skipped —
and preserves the input row order (the result is a sublist);
`applyFilters(t, {yearRange:(2020,2020)})` selects exactly the rows whose
derived year equals 2020; and `applyFilters(t, {journal:"All"})` returns
`t` unchanged *provided every row passes the year-range criterion*: the
year range has no no-op sentinel and is always applied, so it is not the
identity on rows with an absent or out-of-range publication year. -/
theorem C1_applyFilters_composition (t : List CleanedRecord) (c : FilterCriteria) :
    List.Sublist (applyFilters t c) t ∧
    (∀ r, r ∈ applyFilters t c ↔
      r ∈ t ∧ yearPred c.yearRange.1 c.yearRange.2 r = true ∧
      (c.journal ≠ "All" → r.journal = some c.journal) ∧
      (c.source ≠ "All" → r.source_x = some c.source) ∧
      (c.requireAbstract = true → r.has_abstract = true)) ∧
    (applyFilters t ⟨(2020, 2020), "All", "All", false⟩ =
      t.filter fun r => decide (r.publication_year = some (2020 : Int))) ∧
    ((∀ r ∈ t, yearPred c.yearRange.1 c.yearRange.2 r = true) →
      c.journal = "All" → c.source = "All" → c.requireAbstract = false →
      applyFilters t c = t) := by
  refine ⟨applyFilters_sublist t c, mem_applyFilters t c, applyFilters_singleYear t, ?_⟩
  intro hyear hj hs hb
  rcases c with ⟨⟨lo, hi⟩, j, s, b⟩
  simp only at hj hs hb
  subst hj
  subst hs
  subst hb
  exact applyFilters_noop t lo hi hyear

/-- **C1: counterexample** to the claim as stated.  On a table containing
a row with an absent publication year, `applyFilters` with
`journal = "All"` (and every other criterion at its no-op sentinel, the
year range spanning every year present) does *not* return the table
unchanged: the absent-year row is dropped. -/
theorem C1_counterexample :
    applyFilters [exRowNoYear, exRow2020] ⟨(2019, 2022), "All", "All", false⟩ ≠
      [exRowNoYear, exRow2020] := by decide

/-- **C1: witness.**  On a table whose single row has year 2020, the
all-sentinel criteria with a spanning year range are the identity. -/
theorem C1_witness :
    applyFilters [exRow2020] ⟨(2019, 2022), "All", "All", false⟩ = [exRow2020] :=
  (C1_applyFilters_composition [exRow2020] ⟨(2019, 2022), "All", "All", false⟩).2.2.2
    (by decide) rfl rfl rfl

/-- **C9**: the year-range filter (`streamlit_app.py` lines 150-154)
excludes every row with an absent derived publication year (a pandas
comparison with `NaN` is `False`), whatever the range; hence `applyFilters`
is never the identity on a table containing such a row. -/
theorem C9_year_filter_excludes_absent (t : List CleanedRecord) (c : FilterCriteria) :
    (∀ r ∈ applyFilters t c, r.publication_year ≠ none) ∧
    ((∃ r, r ∈ t ∧ r.publication_year = none) → applyFilters t c ≠ t) := by
  have hmem : ∀ r ∈ applyFilters t c, r.publication_year ≠ none := by
    intro r hr hnone
    have h := (mem_applyFilters t c r).mp hr
    rw [yearPred_none hnone] at h
    exact Bool.false_ne_true h.2.1
  refine ⟨hmem, ?_⟩
  rintro ⟨r, hrt, hnone⟩ heq
  exact hmem r (heq.symm ▸ hrt) hnone

/-- **C9: witness.**  A one-row table whose row has no year is not fixed
by `applyFilters`, even with the widest criteria the dashboard offers. -/
theorem C9_witness :
    applyFilters [exRowNoYear] ⟨(2019, 2022), "All", "All", false⟩ ≠ [exRowNoYear] :=
  (C9_year_filter_excludes_absent [exRowNoYear] ⟨(2019, 2022), "All", "All", false⟩).2
    ⟨exRowNoYear, by decide, rfl⟩

/-- **C8**: contrary to the spec's requirement, the filter engine performs
*no* validation: an inverted year range (`max < min`) is applied as-is and
silently yields the empty view — no row can satisfy both bounds — instead
of being rejected with a descriptive validation error (no error path
exists anywhere in `streamlit_app.py` lines 144-166). -/
theorem C8_inverted_range_returns_empty (t : List CleanedRecord) (c : FilterCriteria)
    (h : c.yearRange.2 < c.yearRange.1) : applyFilters t c = [] := by
  apply List.eq_nil_iff_forall_not_mem.mpr
  intro r hr
  have hm := (mem_applyFilters t c r).mp hr
  have hy := hm.2.1
  rw [yearPred] at hy
  cases hYear : r.publication_year with
  | none => rw [hYear] at hy; exact Bool.false_ne_true hy
  | some y =>
    rw [hYear] at hy
    simp only [Bool.and_eq_true, decide_eq_true_eq] at hy
    omega

/-- **C8: witness.**  A nonempty table filtered with the inverted range
`(2021, 2020)` silently becomes the empty table. -/
theorem C8_witness :
    applyFilters [exRow2020] ⟨(2021, 2020), "All", "All", false⟩ = [] ∧
    ([exRow2020] : List CleanedRecord) ≠ [] :=
  ⟨C8_inverted_range_returns_empty [exRow2020] ⟨(2021, 2020), "All", "All", false⟩
    (by decide), by decide⟩

/-- **C2**: `clean` deduplicates by the title field keeping the first
occurrence in original row order — the cleaned table is an in-order
sublist of the enriched table with pairwise-distinct titles, covering
every input title, and each kept row is the *first* enriched row bearing
its title — the removed count is the length difference, and cleaning the
cleaned table again removes zero additional rows (deduplicated input is a
fixed point). -/
theorem C2_clean_dedup_idempotent (t : List RawRecord) :
    List.Sublist ((clean t).1) (t.map enrich) ∧
    ((clean t).1).Pairwise (fun a b => a.title ≠ b.title) ∧
    (∀ r ∈ t.map enrich, ∃ r2, r2 ∈ (clean t).1 ∧ r2.title = r.title) ∧
    (∀ r ∈ (clean t).1,
      (t.map enrich).find? (fun s => decide (s.title = r.title)) = some r) ∧
    (clean t).2 = (t.map enrich).length - ((clean t).1).length ∧
    (cleanAgain (clean t).1).2 = 0 := by
  refine ⟨dedupByKey_sublist _ _, dedupByKey_pairwise _ _, ?_, ?_, rfl,
    cleanAgain_removes_zero t⟩
  · intro r hr
    exact dedupByKey_complete (fun r : CleanedRecord => r.title) (t.map enrich) r hr
  · intro r hr
    exact dedupByKey_find (fun r : CleanedRecord => r.title) (t.map enrich) r hr

set_option maxRecDepth 100000 in
/-- **C2: witness.**  On a two-row table with duplicate titles, the kept
row is the first enriched occurrence of that title. -/
theorem C2_witness :
    ([exRawA, exRawB].map enrich).find?
      (fun s => decide (s.title = (enrich exRawA).title)) = some (enrich exRawA) :=
  (C2_clean_dedup_idempotent [exRawA, exRawB]).2.2.2.1 (enrich exRawA) (by decide)

/-- **C10**: every record produced by the cleaner satisfies the abstract
invariant — `has_abstract` is true exactly when the abstract field is
present, and when it is false both `abstract_length` and
`abstract_word_count` are absent — and the invariant survives a second run
of the cleaning steps and deduplication. -/
theorem C10_abstract_invariant :
    (∀ t : List RawRecord, ∀ r ∈ (clean t).1,
      (r.has_abstract = true ↔ r.abstract.isSome = true) ∧
      (r.has_abstract = false →
        r.abstract_length = none ∧ r.abstract_word_count = none)) ∧
    (∀ t : List CleanedRecord, ∀ r ∈ (cleanAgain t).1,
      (r.has_abstract = true ↔ r.abstract.isSome = true) ∧
      (r.has_abstract = false →
        r.abstract_length = none ∧ r.abstract_word_count = none)) := by
  constructor
  · intro t r hr
    obtain ⟨r0, _, rfl⟩ := mem_clean t r hr
    exact enrich_abstract_invariant r0
  · intro t r hr
    obtain ⟨r0, _, rfl⟩ := mem_cleanAgain t r hr
    exact enrichAgain_abstract_invariant r0

set_option maxRecDepth 100000 in
/-- **C10: witness.**  The invariant holds for the cleaned form of a raw
row without an abstract. -/
theorem C10_witness :
    ((enrich exRawB).has_abstract = true ↔ (enrich exRawB).abstract.isSome = true) ∧
    ((enrich exRawB).has_abstract = false →
      (enrich exRawB).abstract_length = none ∧
      (enrich exRawB).abstract_word_count = none) :=
  C10_abstract_invariant.1 [exRawB] (enrich exRawB) (by decide)

/-- **C6**: `abstractLengthStats` works on the non-absent abstract-length
values only; it returns the explicit no-data result `none` exactly when
every abstract length is absent (in particular on the cleaned form of a
table whose abstracts are all absent) — never a crash and never a silently
propagated `NaN` — and whenever it returns statistics, the mean is the sum
of the present values divided by their number. -/
theorem C6_abstract_stats :
    (∀ t : List RawRecord, (∀ r ∈ t, r.abstract = none) →
      abstractLengthStats (clean t).1 = none) ∧
    (∀ t : List CleanedRecord,
      (abstractLengthStats t = none ↔ ∀ r ∈ t, r.abstract_length = none)) ∧
    (∀ (t : List CleanedRecord) (s : AbstractStats), abstractLengthStats t = some s →
      s.mean = (((t.filterMap fun r => r.abstract_length).sum : Nat) : ℚ) /
        ((t.filterMap fun r => r.abstract_length).length : ℚ)) := by
  have hiff : ∀ t : List CleanedRecord,
      (abstractLengthStats t = none ↔ ∀ r ∈ t, r.abstract_length = none) := by
    intro t
    by_cases h : (t.filterMap fun r => r.abstract_length).isEmpty
    · simp only [abstractLengthStats, h, if_pos]
      constructor
      · intro _ r hr
        exact List.filterMap_eq_nil_iff.mp (List.isEmpty_iff.mp h) r hr
      · intro _
        trivial
    · simp only [abstractLengthStats, h, if_neg, Bool.false_eq_true]
      constructor
      · intro hc
        exact absurd hc (Option.some_ne_none _)
      · intro hall
        exact absurd (List.isEmpty_iff.mpr (List.filterMap_eq_nil_iff.mpr hall)) h
  refine ⟨?_, hiff, ?_⟩
  · intro t hnone
    apply (hiff _).mpr
    intro r hr
    obtain ⟨r0, hr0, rfl⟩ := mem_clean t r hr
    show r0.abstract.map String.length = none
    rw [hnone r0 hr0]
    rfl
  · intro t s h
    by_cases hemp : (t.filterMap fun r => r.abstract_length).isEmpty
    · simp [abstractLengthStats, hemp] at h
    · simp only [abstractLengthStats, hemp, Bool.false_eq_true, if_false,
        Option.some.injEq] at h
      rw [← h]

set_option maxRecDepth 100000 in
/-- **C6: witness.**  On the cleaned form of a one-row table with an
absent abstract, the statistics are the explicit no-data result. -/
theorem C6_witness : abstractLengthStats (clean [exRawB]).1 = none :=
  C6_abstract_stats.1 [exRawB] (by decide)

/-- **C4**: the missing-value report is computed on the pre-cleaning
table: every entry is a column of the input with a strictly positive
absent-value count and percentage exactly `count / total * 100`, every
column with a positive count appears with that pair, and entries are
ordered by descending count. -/
theorem C4_missing_report (t : List RawRecord) :
    (∀ e ∈ missingReport t, 0 < e.2.1 ∧
      e.2.2 = ((e.2.1 : ℚ) / (t.length : ℚ)) * 100 ∧
      ∃ c : RawCol, c ∈ rawColumnsList ∧ e.1 = colName c ∧
        e.2.1 = t.countP (colIsMissing c)) ∧
    (∀ c : RawCol, c ∈ rawColumnsList → 0 < t.countP (colIsMissing c) →
      (colName c, t.countP (colIsMissing c),
        ((t.countP (colIsMissing c) : ℚ) / (t.length : ℚ)) * 100) ∈ missingReport t) ∧
    (missingReport t).Pairwise (fun a b => b.2.1 ≤ a.2.1) := by
  refine ⟨?_, missingReport_complete t, missingReport_sorted t⟩
  intro e he
  obtain ⟨c, hc, hpos, rfl⟩ := missingReport_mem t e he
  exact ⟨hpos, rfl, c, hc, rfl, rfl⟩

/-- **C4: witness.**  On a one-row table whose abstract is absent, the
report contains the abstract column with its count and percentage. -/
theorem C4_witness :
    (colName RawCol.abstract,
      ([exRawB] : List RawRecord).countP (colIsMissing RawCol.abstract),
      ((([exRawB] : List RawRecord).countP (colIsMissing RawCol.abstract) : ℚ) /
        (([exRawB] : List RawRecord).length : ℚ)) * 100) ∈ missingReport [exRawB] :=
  (C4_missing_report [exRawB]).2.1 RawCol.abstract (by decide) (by decide)

set_option maxRecDepth 100000 in
/-- **C5**: `titleWordFrequency` lower-cases the titles, tokenizes on
`\w+`, discards tokens of length ≤ 2 and stopwords, counts the remaining
occurrences and sorts by descending count with first-occurrence order as
the tie-break; on the two claimed titles with stopword set `{"and"}` the
result is exactly `[(vaccination, 2), (covid, 1), (treatment, 1)]`. -/
theorem C5_title_word_frequency :
    titleWordFrequency exTitlesTable ["and"] =
      [("vaccination", 2), ("covid", 1), ("treatment", 1)] ∧
    (∀ (t : List CleanedRecord) (sw : List String),
      (titleWordFrequency t sw).Pairwise (fun a b => b.2 ≤ a.2) ∧
      (∀ e ∈ titleWordFrequency t sw,
        2 < e.1.length ∧ ¬(sw.contains e.1 = true) ∧
        e.2 = (filteredTitleTokens t sw).count e.1 ∧ 0 < e.2) ∧
      (∀ w ∈ filteredTitleTokens t sw,
        (w, (filteredTitleTokens t sw).count w) ∈ titleWordFrequency t sw)) := by
  constructor
  · decide
  · intro t sw
    refine ⟨sortDescBy_sorted _ _, ?_, ?_⟩
    · rintro ⟨w, c⟩ he
      have hmem := (sortDescBy_perm (fun e : String × Nat => e.2) _).mem_iff.mp he
      obtain ⟨hcount, hw⟩ := countWords_mem hmem
      have hf := List.mem_filter.mp ((by exact hw) :
        w ∈ (tokenize (joinSpaced ((t.filterMap (fun r => r.title)).map lowerStr))).filter
          (fun w => decide (w.length > 2) && !(sw.contains w)))
      obtain ⟨hlen, hsw⟩ := Bool.and_eq_true_iff.mp hf.2
      refine ⟨by simpa using hlen, ?_, hcount, ?_⟩
      · simp only [Bool.not_eq_eq_eq_not, Bool.not_true] at hsw
        simpa using hsw
      · rw [hcount]
        exact List.count_pos_iff.mpr hw
    · intro w hw
      apply (sortDescBy_perm (fun e : String × Nat => e.2) _).mem_iff.mpr
      exact countWords_complete hw

set_option maxRecDepth 100000 in
/-- **C5: witness.**  The pair for "vaccination" (count 2) is in the
output for the example table. -/
theorem C5_witness :
    ("vaccination", (filteredTitleTokens exTitlesTable ["and"]).count "vaccination") ∈
      titleWordFrequency exTitlesTable ["and"] :=
  (C5_title_word_frequency.2 exTitlesTable ["and"]).2.2 "vaccination" (by decide)

/-- **C3**: the synthetic-data generator is deterministic — its output is
a pure function of the seed and the requested row count, so two calls with
the same arguments are identical — and it produces exactly `n` rows. -/
theorem C3_synthesize_deterministic (seed n : Nat) :
    createSampleData seed n = createSampleData seed n ∧
    (createSampleData seed n).length = n :=
  ⟨rfl, genRows_length ⟨seed⟩ 0 n⟩

set_option maxRecDepth 1000000 in
/-- **C7**: the per-row window probabilities of the date branch.  Each
threshold is a multiple of 1/10, so the probability under three
independent uniform draws equals the frequency on the uniform grid of
1000 equally likely triples: the 31-day window starting 2019-12-01 is hit
with probability 100/1000 = 10%, but 2020 with 450/1000 = **45%** (not the
claimed 40%), 2021 with 360/1000 = **36%** (not 30%) and 2022 with
90/1000 = **9%** (not 20%), because each `elif` of
`cord19_analysis.py` lines 115-122 draws a *fresh* uniform against the
cumulative thresholds 0.5 and 0.8.  The window start facts confirm the
31-day window and the year windows themselves. -/
theorem C7_date_bucket_probabilities :
    bucketGridCount 0 = 100 ∧ bucketGridCount 1 = 450 ∧
    bucketGridCount 2 = 360 ∧ bucketGridCount 3 = 90 ∧
    (∀ d : Fin 31, (addDays ⟨2019, 12, 1⟩ d.val).year = 2019 ∧
      (addDays ⟨2019, 12, 1⟩ d.val).month = 12) ∧
    (∀ d : Fin 365, (addDays ⟨2020, 1, 1⟩ d.val).year = 2020) ∧
    (∀ d : Fin 365, (addDays ⟨2021, 1, 1⟩ d.val).year = 2021) ∧
    (∀ d : Fin 365, (addDays ⟨2022, 1, 1⟩ d.val).year = 2022) := by
  refine ⟨?_, ?_, ?_, ?_, by decide, by decide, by decide, by decide⟩
  · rw [bucketGridCount_eq]
    decide
  · rw [bucketGridCount_eq]
    decide
  · rw [bucketGridCount_eq]
    decide
  · rw [bucketGridCount_eq]
    decide

end Cord19
